import Mathlib

/-!
# Lunu: self-extracting executable builder and launcher — verification

Shallow embedding of the Lunu repository (`src/builder/src/main.cpp`,
`src/builder/src/stub.c`) together with a spec-modelled Archive Codec
(the codec is explicitly left unimplemented in the sources: `extract_payload`
in `stub.c` says "Implementation omitted", and the packing logic in
`main.cpp` is a TODO placeholder).

Bytes are modelled as `Nat` (with values `< 256` where the format requires
it), byte strings as `List Nat`, and stateful Win32 calls as explicit
oracle records.
-/

namespace Lunu

/-! ## Archive Codec — byte-level model

Modelled from the spec: the Archive Codec (`build` / `locate` / `extract`)
is absent from `src/` — `extract_payload` in `stub.c` is a stub whose body
says "Find ZIP EOCD signature (0x06054b50) from the end / Extract all files
to out_dir / Implementation omitted".  The model below follows the spec's
data model: entries are serialized in order, followed by a trailer record
`{magic signature, archive byte offset, archive byte length, record length}`
whose signature is the ZIP EOCD byte pattern, placed as the last bytes of
the archive. -/

/-- A byte: a natural number intended to be `< 256`. -/
abbrev Byte := Nat

/-- An archive entry: a slash-separated relative path (as bytes) and its
stored payload bytes. -/
abbrev Entry := List Byte × List Byte

/-- The ZIP end-of-central-directory signature `0x06054b50`, little-endian
on disk, as named in `stub.c`'s `extract_payload` comment. -/
def SIG : List Byte := [0x50, 0x4b, 0x05, 0x06]

/-- Signature marking the start of each serialized entry (ZIP
local-file-header pattern `0x04034b50`, little-endian on disk). -/
def ENTRYSIG : List Byte := [0x50, 0x4b, 0x03, 0x04]

/-- Fixed length of the trailer record: 4 signature bytes, 8-byte archive
offset field, 8-byte archive length field, 4-byte record length field. -/
def TRAILER_LEN : Nat := 24

/-- Little-endian encoding of a natural number into 8 bytes. -/
def enc8 (n : Nat) : List Byte :=
  [n % 256, n / 256 % 256, n / 256 ^ 2 % 256, n / 256 ^ 3 % 256,
   n / 256 ^ 4 % 256, n / 256 ^ 5 % 256, n / 256 ^ 6 % 256, n / 256 ^ 7 % 256]

/-- Little-endian encoding of a natural number into 4 bytes. -/
def enc4 (n : Nat) : List Byte :=
  [n % 256, n / 256 % 256, n / 256 ^ 2 % 256, n / 256 ^ 3 % 256]

/-- Little-endian decoding of a byte list. -/
def decLE : List Byte → Nat
  | [] => 0
  | b :: r => b + 256 * decLE r

/-- Serialization of one entry:
`ENTRYSIG ++ enc8 |path| ++ path ++ enc8 |content| ++ content`. -/
def serEntry (e : Entry) : List Byte :=
  ENTRYSIG ++ enc8 e.1.length ++ e.1 ++ enc8 e.2.length ++ e.2

/-- The serialized-entries region of an archive. -/
def payloadBytes (entries : List Entry) : List Byte :=
  (entries.map serEntry).flatten

/-- The trailer record for a payload of length `plen`: signature, archive
offset (recorded as the distance from the end of the archive back to the
archive start, so the record is independent of the launcher-template
length), archive length, and the fixed record length. -/
def trailerBytes (plen : Nat) : List Byte :=
  SIG ++ enc8 (plen + TRAILER_LEN) ++ enc8 plen ++ enc4 TRAILER_LEN

/-- Error kinds of the codec and launcher, from the spec's §7 list. -/
inductive CodecErr where
  | ArchiveNotFound
  | DuplicateEntry
  | UnsafePath
  | TempDirError
  | LaunchError
  | ExtractionIOError
  deriving DecidableEq, Repr

/-- Modelled from the spec: `build` serializes the ordered entries plus the
trailer record, rejecting duplicate paths with `DuplicateEntry`. -/
def build (entries : List Entry) : Except CodecErr (List Byte) :=
  if (entries.map Prod.fst).Nodup then
    .ok (payloadBytes entries ++ trailerBytes (payloadBytes entries).length)
  else
    .error .DuplicateEntry

/-- `assemble`: launcher template bytes followed by the archive bytes. -/
def assemble (template : List Byte) (archive : List Byte) : List Byte :=
  template ++ archive

/-- The archive-offset field decoded from a candidate trailer at index `i`. -/
def offFieldAt (img : List Byte) (i : Nat) : Nat :=
  decLE ((img.drop (i + 4)).take 8)

/-- The archive-length field decoded from a candidate trailer at index `i`. -/
def lenFieldAt (img : List Byte) (i : Nat) : Nat :=
  decLE ((img.drop (i + 12)).take 8)

/-- The record-length field decoded from a candidate trailer at index `i`. -/
def recFieldAt (img : List Byte) (i : Nat) : Nat :=
  decLE ((img.drop (i + 20)).take 4)

/-- A valid trailer at index `i`: the signature matches, the whole record
fits in the image, and the decoded fields are mutually consistent (the
offset field equals archive length plus record length, the record length
field is the fixed record length, and the archive region `[i - length, i)`
lies inside the image). -/
def validTrailerAt (img : List Byte) (i : Nat) : Prop :=
  (img.drop i).take 4 = SIG ∧
  i + TRAILER_LEN ≤ img.length ∧
  offFieldAt img i = lenFieldAt img i + TRAILER_LEN ∧
  recFieldAt img i = TRAILER_LEN ∧
  lenFieldAt img i ≤ i

instance (img : List Byte) (i : Nat) : Decidable (validTrailerAt img i) := by
  unfold validTrailerAt; infer_instance

/-- The `(archive offset, archive length)` recovered from a valid trailer
at index `i`. -/
def readTrailer (img : List Byte) (i : Nat) : Nat × Nat :=
  (i - lenFieldAt img i, lenFieldAt img i)

/-- Backward scan: the greatest index `j ≤ i` holding a valid trailer. -/
def scanBack (img : List Byte) : Nat → Option Nat
  | 0 => if validTrailerAt img 0 then some 0 else none
  | i + 1 => if validTrailerAt img (i + 1) then some (i + 1) else scanBack img i

/-- Modelled from the spec: `locate` reads the trailer record at the fixed
tail position first and falls back to a backward scan for the signature,
the rearmost validated match winning; `ArchiveNotFound` when no valid
trailer exists in the whole image.  (The fixed-tail read is the first
probe of the backward scan, which starts at the tail position.) -/
def locate (img : List Byte) : Except CodecErr (Nat × Nat) :=
  if TRAILER_LEN ≤ img.length then
    match scanBack img (img.length - TRAILER_LEN) with
    | some i => .ok (readTrailer img i)
    | none => .error .ArchiveNotFound
  else
    .error .ArchiveNotFound

/-- Parse one serialized entry from the head of `l`, returning the entry
and the remaining bytes. -/
def parseEntry (l : List Byte) : Option (Entry × List Byte) :=
  if l.take 4 = ENTRYSIG ∧ 20 ≤ l.length then
    let plen := decLE ((l.drop 4).take 8)
    let rest1 := l.drop 12
    if plen ≤ rest1.length then
      let path := rest1.take plen
      let rest2 := rest1.drop plen
      if 8 ≤ rest2.length then
        let clen := decLE (rest2.take 8)
        let rest3 := rest2.drop 8
        if clen ≤ rest3.length then
          some ((path, rest3.take clen), rest3.drop clen)
        else none
      else none
    else none
  else none

/-- Fuel-driven entry-list parser; fuel bounds the number of entries. -/
def parseEntriesFuel : Nat → List Byte → Option (List Entry)
  | _, [] => some []
  | 0, _ :: _ => none
  | fuel + 1, l =>
    match parseEntry l with
    | some (e, rest) => (parseEntriesFuel fuel rest).map (e :: ·)
    | none => none

/-- Parse a whole payload region into its entry list. -/
def parseEntries (l : List Byte) : Option (List Entry) :=
  parseEntriesFuel l.length l

/-- Split a byte path on `'/'` (byte 47) into segments. -/
def splitSeg (p : List Byte) : List (List Byte) :=
  go p [] where
  go : List Byte → List Byte → List (List Byte)
    | [], acc => [acc.reverse]
    | b :: r, acc => if b = 47 then acc.reverse :: go r [] else go r (b :: acc)

/-- Modelled from the spec: a path is safe when its normalized resolution
never escapes the destination root — processing segments left to right,
`".."` pops one level and must never pop past the root, `"."` and empty
segments are neutral. -/
def safeSegs : List (List Byte) → Nat → Bool
  | [], _ => true
  | s :: r, d =>
    if s = [46, 46] then
      match d with
      | 0 => false
      | d' + 1 => safeSegs r d'
    else if s = [46] ∨ s = [] then safeSegs r d
    else safeSegs r (d + 1)

/-- Path safety check used by `extract`. -/
def isSafePath (p : List Byte) : Bool :=
  safeSegs (splitSeg p) 0

/-- Sequentially extract parsed entries: each entry's path is checked and,
if safe, the entry is written; an unsafe path aborts with `UnsafePath`. -/
def extractFrom : List Entry → Except CodecErr (List Entry)
  | [] => .ok []
  | e :: r =>
    if isSafePath e.1 then (extractFrom r).map (e :: ·)
    else .error .UnsafePath

/-- The files actually written by `extractFrom` before any failure: the
longest safe prefix (each write happens only after its own path check). -/
def writesFrom (es : List Entry) : List Entry :=
  es.takeWhile (fun e => isSafePath e.1)

/-- Modelled from the spec: `extract` reads the entries of the archive
region `[off, off+len)` in order and writes each under the destination,
rejecting unsafe paths with `UnsafePath`; an unparsable region is a fatal
extraction error. -/
def extract (img : List Byte) (off len : Nat) : Except CodecErr (List Entry) :=
  match parseEntries ((img.drop off).take len) with
  | some es => extractFrom es
  | none => .error .ExtractionIOError

/-- The writes `extract` performs under the destination (empty when the
region does not parse). -/
def extractWrites (img : List Byte) (off len : Nat) : List Entry :=
  match parseEntries ((img.drop off).take len) with
  | some es => writesFrom es
  | none => []

/-! ## Builder CLI — `src/builder/src/main.cpp`

The command dispatch, exit codes and output-name derivation are implemented
in `main.cpp`; the packing logic itself is a TODO placeholder
("[Builder] TODO: Implement Luau compilation & packing logic here.") and is
spec-modelled below. -/

/-- Index of the last occurrence of `'.'` in a character list, mirroring
`std::string::find_last_of(".")` (with `none` for `npos`). -/
def lastDotIdx : List Char → Option Nat
  | [] => none
  | c :: r =>
    match lastDotIdx r with
    | some i => some (i + 1)
    | none => if c = '.' then some 0 else none

/-- Output-name derivation from `main.cpp`:
`filename.substr(0, filename.find_last_of(".")) + ".exe"` — everything from
the last `'.'` of the whole path string is replaced by `".exe"`; when there
is no `'.'` at all, `substr(0, npos)` is the whole string, so `".exe"` is
appended. -/
def deriveOutputName (s : String) : String :=
  match lastDotIdx s.toList with
  | some i => String.mk (s.toList.take i) ++ ".exe"
  | none => s ++ ".exe"

/-- Builder-side environment: the outcome of reading the input script, the
bundled runtime bytes, the launcher template bytes, and whether writing the
output file succeeds. -/
structure BuilderIO where
  inputBytes : Option (List Byte)
  runtimeBytes : List Byte
  template : List Byte
  writeOk : Bool

/-- Builder outcome: process exit code, the output file finally present
(path and bytes), and whether a half-written partial file is left behind. -/
structure BuilderResult where
  exitCode : Nat
  written : Option (String × List Byte)
  partialOutput : Bool
  deriving DecidableEq, Repr

/-- Byte string of an ASCII path literal. -/
def strBytes (s : String) : List Byte :=
  s.toList.map Char.toNat

/-- The fixed extracted-tree entries the builder packs: the runtime binary
at `bin/lune.exe` and the entry script at `src/main.luau` (the contract the
launcher's fixed paths in `stub.c` rely on). -/
def packEntries (runtime script : List Byte) : List Entry :=
  [(strBytes "bin/lune.exe", runtime), (strBytes "src/main.luau", script)]

/-- Modelled from the spec: the packing step marked TODO in `main.cpp` —
read the input script (a bad input file stops the build with exit code 1),
assemble `template ++ build(entries)`, and write the image to the derived
output name in the current directory via a temporary name renamed on
success, so failure leaves no partial output. -/
def packAndWrite (filename : String) (io : BuilderIO) : BuilderResult :=
  match io.inputBytes with
  | none => ⟨1, none, false⟩
  | some content =>
    match build (packEntries io.runtimeBytes content) with
    | .error _ => ⟨1, none, false⟩
    | .ok archive =>
      if io.writeOk then
        ⟨0, some (deriveOutputName filename, assemble io.template archive), false⟩
      else ⟨1, none, false⟩

/-- The builder `main` from `main.cpp`, over the arguments after `argv[0]`:
no command prints usage and exits 1; `version` exits 0; `build` without a
file argument exits 1; `build <file>` runs the packing step; an unknown
command exits 1. -/
def builderMain (args : List String) (io : BuilderIO) : BuilderResult :=
  match args with
  | [] => ⟨1, none, false⟩
  | cmd :: rest =>
    if cmd = "version" then ⟨0, none, false⟩
    else if cmd = "build" then
      match rest with
      | [] => ⟨1, none, false⟩
      | filename :: _ => packAndWrite filename io
    else ⟨1, none, false⟩

/-! ## Launcher — `src/builder/src/stub.c`

`main` in `stub.c`: get the executable path, build the temp-directory name
`%TEMP%\lunu_<pid>`, create it (tolerating `ERROR_ALREADY_EXISTS`), run the
(stub) extraction, build the fixed child command line, spawn, wait, read
the child's exit code and return it.  The recursive removal of the temp
directory is commented out in the source
(`// RemoveDirectoryA(unique_dir); // Recursive delete needed`). -/

/-- Outcome of the `CreateDirectoryA` call. -/
inductive CreateDirOutcome where
  | created
  | alreadyExists
  | failed
  deriving DecidableEq, Repr

/-- Win32 model of `CreateDirectoryA`: on an existing directory the call
fails with `ERROR_ALREADY_EXISTS`; otherwise it creates the directory
unless the OS faults. -/
def createDirectoryA (dirExists : Bool) (osFault : Bool) : CreateDirOutcome :=
  if dirExists then .alreadyExists
  else if osFault then .failed
  else .created

/-- The temp-dir creation step of `stub.c` proceeds unless the call failed
with an error other than `ERROR_ALREADY_EXISTS`:
`if (!CreateDirectoryA(...) && GetLastError() != ERROR_ALREADY_EXISTS) panic(...)`. -/
def tempDirStepOk : CreateDirOutcome → Bool
  | .failed => false
  | _ => true

/-- Whether the directory exists after the creation step. -/
def dirExistsAfter : CreateDirOutcome → Bool
  | .failed => false
  | _ => true

/-- Oracle for one launcher run: whether `GetModuleFileNameA` succeeds, the
`GetTempPathA` result, the process id, the `CreateDirectoryA` outcome,
whether `CreateProcessA` succeeds, and the child's 32-bit exit status. -/
structure LaunchEnv where
  moduleOk : Bool
  tempPath : String
  pid : Nat
  createDir : CreateDirOutcome
  spawnOk : Bool
  childExit : Nat

/-- Observable outcome of a launcher run: the process exit code, the
command line and working directory passed to `CreateProcessA` (when
reached), whether the run reached the `Waited` state, and whether the temp
directory still exists when the launcher process terminates. -/
structure LaunchResult where
  exitCode : Nat
  spawnAttempt : Option (String × String)
  waited : Bool
  tempDirExistsAtExit : Bool
  deriving DecidableEq, Repr

/-- The temp-directory name: `sprintf(unique_dir, "%slunu_%lu", temp_path,
GetCurrentProcessId())`. -/
def uniqueDir (env : LaunchEnv) : String :=
  env.tempPath ++ "lunu_" ++ toString env.pid

/-- `sprintf(lune_path, "%s\\bin\\lune.exe", unique_dir)`. -/
def lunePath (d : String) : String := d ++ "\\bin\\lune.exe"

/-- `sprintf(script_path, "%s\\src\\main.luau", unique_dir)`. -/
def scriptPath (d : String) : String := d ++ "\\src\\main.luau"

/-- `sprintf(cmd_line, "\"%s\" run \"%s\"", lune_path, script_path)`. -/
def cmdLine (d : String) : String :=
  "\"" ++ lunePath d ++ "\" run \"" ++ scriptPath d ++ "\""

/-- The launcher `main` from `stub.c`.  `panic` prints and `exit(1)`s; the
commented-out `RemoveDirectoryA` means no path ever removes the temp
directory, so `tempDirExistsAtExit` is `true` whenever the creation step
left the directory in place. -/
def stubMain (env : LaunchEnv) : LaunchResult :=
  if env.moduleOk = false then
    ⟨1, none, false, false⟩
  else if tempDirStepOk env.createDir = false then
    ⟨1, none, false, dirExistsAfter env.createDir⟩
  else
    let d := uniqueDir env
    if env.spawnOk = false then
      ⟨1, some (cmdLine d, d), false, dirExistsAfter env.createDir⟩
    else
      ⟨env.childExit % 4294967296, some (cmdLine d, d), true,
        dirExistsAfter env.createDir⟩

/-! ## Concrete fixtures used by witnesses -/

/-- A small archive entry: path `[97]` (`"a"`), content `[98]`. -/
def sampleEntry : Entry := ([97], [98])

/-- An image whose launcher-template part is itself a byte-for-byte valid
trailer record (a decoy), followed by a real one-entry archive: the true
trailer is rearmost. -/
def decoyImg : List Byte :=
  trailerBytes 0 ++
    (payloadBytes [sampleEntry] ++ trailerBytes (payloadBytes [sampleEntry]).length)

/-- Entries containing a parent-directory-escaping path. -/
def evilEntries : List Entry := [(strBytes "../outside.txt", [5])]

/-- An image embedding an archive with the escaping entry. -/
def evilImg : List Byte :=
  assemble [9] (payloadBytes evilEntries ++ trailerBytes (payloadBytes evilEntries).length)

/-- A launcher run in which everything succeeds and the child exits 7. -/
def env7 : LaunchEnv := ⟨true, "C:\\Temp\\", 1234, .created, true, 7⟩

/-- A launcher run in which everything succeeds and the child exits 0. -/
def env0 : LaunchEnv := ⟨true, "C:\\Temp\\", 1234, .created, true, 0⟩

/-- A launcher run whose temp-directory creation fails hard. -/
def envFail : LaunchEnv := ⟨true, "C:\\Temp\\", 1234, .failed, true, 0⟩

/-- A builder run with a readable input script and a working output write. -/
def sampleIO : BuilderIO := ⟨some [1, 2], [3, 4], [9, 9], true⟩

/-- A builder run whose input script cannot be read. -/
def sampleIOBad : BuilderIO := ⟨none, [3, 4], [9, 9], true⟩

/-! ## Helper lemmas: encodings and serialization -/

theorem enc8_length (n : Nat) : (enc8 n).length = 8 := rfl

theorem enc4_length (n : Nat) : (enc4 n).length = 4 := rfl

theorem decLE_enc8 (n : Nat) (h : n < 256 ^ 8) : decLE (enc8 n) = n := by
  simp only [enc8, decLE]
  omega

theorem decLE_enc4 (n : Nat) (h : n < 256 ^ 4) : decLE (enc4 n) = n := by
  simp only [enc4, decLE]
  omega

theorem serEntry_length (e : Entry) :
    (serEntry e).length = 20 + e.1.length + e.2.length := by
  simp [serEntry, ENTRYSIG, enc8_length]
  omega

theorem payloadBytes_nil : payloadBytes [] = [] := rfl

theorem payloadBytes_cons (e : Entry) (es : List Entry) :
    payloadBytes (e :: es) = serEntry e ++ payloadBytes es := by
  simp [payloadBytes]

/-- Parsing inverts serialization: one serialized entry at the head of a
byte stream parses back to the entry and the remaining bytes. -/
theorem parseEntry_serEntry (p c rest : List Byte)
    (hp : p.length < 256 ^ 8) (hc : c.length < 256 ^ 8) :
    parseEntry (serEntry (p, c) ++ rest) = some ((p, c), rest) := by
  have hassoc : serEntry (p, c) ++ rest =
      ENTRYSIG ++ (enc8 p.length ++ (p ++ (enc8 c.length ++ (c ++ rest)))) := by
    simp [serEntry]
  rw [hassoc]
  have htake4 : (ENTRYSIG ++ (enc8 p.length ++ (p ++ (enc8 c.length ++ (c ++ rest))))).take 4
      = ENTRYSIG := List.take_left' rfl
  have hdrop4 : (ENTRYSIG ++ (enc8 p.length ++ (p ++ (enc8 c.length ++ (c ++ rest))))).drop 4
      = enc8 p.length ++ (p ++ (enc8 c.length ++ (c ++ rest))) := List.drop_left' rfl
  have hlen : 20 ≤ (ENTRYSIG ++ (enc8 p.length ++ (p ++ (enc8 c.length ++ (c ++ rest))))).length := by
    simp [ENTRYSIG, enc8_length]
    omega
  have htake8 : (enc8 p.length ++ (p ++ (enc8 c.length ++ (c ++ rest)))).take 8
      = enc8 p.length := List.take_left' rfl
  have hdrop12 : (ENTRYSIG ++ (enc8 p.length ++ (p ++ (enc8 c.length ++ (c ++ rest))))).drop 12
      = p ++ (enc8 c.length ++ (c ++ rest)) := by
    have : (ENTRYSIG ++ (enc8 p.length ++ (p ++ (enc8 c.length ++ (c ++ rest)))))
        = (ENTRYSIG ++ enc8 p.length) ++ (p ++ (enc8 c.length ++ (c ++ rest))) := by
      simp
    rw [this]
    exact List.drop_left' rfl
  unfold parseEntry
  rw [htake4, hdrop4, htake8, decLE_enc8 p.length hp, hdrop12]
  simp only [List.take_left' (rfl : p.length = p.length),
    List.drop_left' (rfl : p.length = p.length)]
  rw [List.take_left' (enc8_length c.length), List.drop_left' (enc8_length c.length),
    decLE_enc8 c.length hc,
    List.take_left' (rfl : c.length = c.length),
    List.drop_left' (rfl : c.length = c.length)]
  simp only [hlen, ENTRYSIG]
  simp [enc8_length]
  omega

/-- Well-formed entry: its length fields fit the 8-byte format fields. -/
def wfEntry (e : Entry) : Prop :=
  e.1.length < 256 ^ 8 ∧ e.2.length < 256 ^ 8

instance (e : Entry) : Decidable (wfEntry e) := by
  unfold wfEntry; infer_instance

theorem parseEntriesFuel_step (fuel : Nat) (b : Byte) (l rest : List Byte)
    (e : Entry) (h : parseEntry (b :: l) = some (e, rest)) :
    parseEntriesFuel (fuel + 1) (b :: l) =
      (parseEntriesFuel fuel rest).map (e :: ·) := by
  simp [parseEntriesFuel, h]

/-- The payload of a well-formed entry list parses back to the list,
given enough fuel. -/
theorem parseEntriesFuel_payload (entries : List Entry) :
    ∀ fuel, (payloadBytes entries).length ≤ fuel →
    (∀ e ∈ entries, wfEntry e) →
    parseEntriesFuel fuel (payloadBytes entries) = some entries := by
  induction entries with
  | nil => intro fuel _ _; rw [payloadBytes_nil]; cases fuel <;> rfl
  | cons e es ih =>
    intro fuel hfuel hwf
    have hwfe : wfEntry e := hwf e (by simp)
    have hser : parseEntry (serEntry (e.1, e.2) ++ payloadBytes es) =
        some ((e.1, e.2), payloadBytes es) :=
      parseEntry_serEntry e.1 e.2 (payloadBytes es) hwfe.1 hwfe.2
    have hlen : (payloadBytes (e :: es)).length =
        20 + e.1.length + e.2.length + (payloadBytes es).length := by
      rw [payloadBytes_cons]
      simp [serEntry_length]
    obtain ⟨f, rfl⟩ : ∃ f, fuel = f + 1 := by
      cases fuel with
      | zero => omega
      | succ f => exact ⟨f, rfl⟩
    have hcons : ∃ b l, serEntry (e.1, e.2) ++ payloadBytes es = b :: l := by
      simp [serEntry, ENTRYSIG]
    obtain ⟨b, l, hbl⟩ := hcons
    rw [payloadBytes_cons]
    have he : (e.1, e.2) = e := rfl
    rw [show serEntry e = serEntry (e.1, e.2) from rfl, hbl,
      parseEntriesFuel_step f b l (payloadBytes es) (e.1, e.2) (hbl ▸ hser)]
    rw [ih f (by omega) (fun x hx => hwf x (by simp [hx])), he]
    rfl

theorem parseEntries_payload (entries : List Entry)
    (hwf : ∀ e ∈ entries, wfEntry e) :
    parseEntries (payloadBytes entries) = some entries :=
  parseEntriesFuel_payload entries (payloadBytes entries).length le_rfl hwf

theorem extractFrom_safe (es : List Entry)
    (h : ∀ e ∈ es, isSafePath e.1 = true) :
    extractFrom es = .ok es := by
  induction es with
  | nil => rfl
  | cons e es ih =>
    have he : isSafePath e.1 = true := h e (by simp)
    simp [extractFrom, he, ih (fun x hx => h x (by simp [hx])), Except.map]

theorem extractFrom_unsafe (es : List Entry)
    (h : ∃ e ∈ es, isSafePath e.1 = false) :
    extractFrom es = .error .UnsafePath := by
  induction es with
  | nil => simp at h
  | cons e es ih =>
    by_cases he : isSafePath e.1 = true
    · have : ∃ x ∈ es, isSafePath x.1 = false := by
        obtain ⟨x, hx, hxs⟩ := h
        rcases List.mem_cons.mp hx with h1 | h1
        · rw [h1] at hxs; rw [hxs] at he; cases he
        · exact ⟨x, h1, hxs⟩
      simp [extractFrom, he, ih this, Except.map]
    · simp [extractFrom, he]

/-! ## Helper lemmas: the trailer and `locate` -/

theorem trailerBytes_length (P : Nat) : (trailerBytes P).length = TRAILER_LEN := by
  simp [trailerBytes, SIG, enc8, enc4, TRAILER_LEN]

/-- The decoded fields of a trailer record sitting at index `i`. -/
theorem fields_at_trailer (img : List Byte) (i P : Nat)
    (h : img.drop i = trailerBytes P) :
    (img.drop i).take 4 = SIG ∧
    offFieldAt img i = decLE (enc8 (P + TRAILER_LEN)) ∧
    lenFieldAt img i = decLE (enc8 P) ∧
    recFieldAt img i = decLE (enc4 TRAILER_LEN) := by
  have h4 : img.drop (i + 4) = (img.drop i).drop 4 := (List.drop_drop 4 i img).symm
  have h12 : img.drop (i + 12) = (img.drop i).drop 12 := (List.drop_drop 12 i img).symm
  have h20 : img.drop (i + 20) = (img.drop i).drop 20 := (List.drop_drop 20 i img).symm
  refine ⟨?_, ?_, ?_, ?_⟩
  · rw [h]; rfl
  · rw [offFieldAt, h4, h]; rfl
  · rw [lenFieldAt, h12, h]; rfl
  · rw [recFieldAt, h20, h]; rfl

/-- The trailer `build` appends is a valid trailer at the position right
after the payload, in any image that puts template bytes before it. -/
theorem validTrailer_built (t pl : List Byte)
    (hP : pl.length + TRAILER_LEN < 256 ^ 8) :
    validTrailerAt (t ++ (pl ++ trailerBytes pl.length)) (t.length + pl.length) := by
  set P := pl.length with hPdef
  have himg : t ++ (pl ++ trailerBytes P) = (t ++ pl) ++ trailerBytes P := by simp
  have hdrop : (t ++ (pl ++ trailerBytes P)).drop (t.length + P) = trailerBytes P := by
    rw [himg]
    exact List.drop_left' (by simp)
  obtain ⟨hsig, hoff, hlen, hrec⟩ :=
    fields_at_trailer (t ++ (pl ++ trailerBytes P)) (t.length + P) P hdrop
  have hlength : (t ++ (pl ++ trailerBytes P)).length = t.length + P + TRAILER_LEN := by
    simp [trailerBytes_length]
    omega
  refine ⟨by rw [hsig], by omega, ?_, ?_, ?_⟩
  · rw [hoff, hlen, decLE_enc8 (P + TRAILER_LEN) hP,
      decLE_enc8 P (by omega)]
  · rw [hrec, decLE_enc4 TRAILER_LEN (by decide)]
  · rw [hlen, decLE_enc8 P (by omega)]; omega

theorem scanBack_of_valid (img : List Byte) (i : Nat)
    (h : validTrailerAt img i) : scanBack img i = some i := by
  cases i <;> simp [scanBack, h]

theorem scanBack_eq_some (img : List Byte) :
    ∀ i j, scanBack img i = some j →
      j ≤ i ∧ validTrailerAt img j ∧
        ∀ k, j < k → k ≤ i → ¬validTrailerAt img k := by
  intro i
  induction i with
  | zero =>
    intro j h
    by_cases hv : validTrailerAt img 0
    · simp [scanBack, hv] at h
      exact ⟨by omega, h ▸ hv, by omega⟩
    · simp [scanBack, hv] at h
  | succ i ih =>
    intro j h
    by_cases hv : validTrailerAt img (i + 1)
    · simp [scanBack, hv] at h
      exact ⟨by omega, h ▸ hv, fun k hk1 hk2 => by omega⟩
    · simp [scanBack, hv] at h
      obtain ⟨h1, h2, h3⟩ := ih j h
      refine ⟨by omega, h2, fun k hk1 hk2 => ?_⟩
      rcases Nat.lt_or_ge k (i + 1) with hk | hk
      · exact h3 k hk1 (by omega)
      · have : k = i + 1 := by omega
        rw [this]; exact hv

theorem scanBack_eq_none (img : List Byte) :
    ∀ i, scanBack img i = none ↔ ∀ j, j ≤ i → ¬validTrailerAt img j := by
  intro i
  induction i with
  | zero =>
    constructor
    · intro h j hj
      interval_cases j
      intro hv
      rw [scanBack_of_valid img 0 hv] at h
      cases h
    · intro h
      have := h 0 le_rfl
      simp [scanBack, this]
  | succ i ih =>
    by_cases hv : validTrailerAt img (i + 1)
    · rw [scanBack_of_valid img (i + 1) hv]
      constructor
      · intro h; cases h
      · intro h; exact absurd hv (h (i + 1) le_rfl)
    · have hstep : scanBack img (i + 1) = scanBack img i := by
        simp [scanBack, hv]
      rw [hstep, ih]
      constructor
      · intro h j hj
        rcases Nat.lt_or_ge j (i + 1) with hk | hk
        · exact h j (by omega)
        · have hji : j = i + 1 := by omega
          rw [hji]; exact hv
      · intro h j hj; exact h j (by omega)

/-- Any valid trailer lies at or before the fixed tail position. -/
theorem valid_le_tail (img : List Byte) (k : Nat)
    (h : validTrailerAt img k) :
    TRAILER_LEN ≤ img.length ∧ k ≤ img.length - TRAILER_LEN := by
  have := h.2.1
  omega

/-- `locate` on a built image recovers the archive offset (the template
length) and the archive (payload) length, for any template. -/
theorem locate_built (t pl : List Byte)
    (hP : pl.length + TRAILER_LEN < 256 ^ 8) :
    locate (t ++ (pl ++ trailerBytes pl.length)) = .ok (t.length, pl.length) := by
  set img := t ++ (pl ++ trailerBytes pl.length) with himg
  have hlength : img.length = t.length + pl.length + TRAILER_LEN := by
    simp [himg, trailerBytes_length]
    omega
  have hvalid : validTrailerAt img (t.length + pl.length) := validTrailer_built t pl hP
  have htail : img.length - TRAILER_LEN = t.length + pl.length := by omega
  have hdrop : img.drop (t.length + pl.length) = trailerBytes pl.length := by
    rw [himg, show t ++ (pl ++ trailerBytes pl.length) =
      (t ++ pl) ++ trailerBytes pl.length by simp]
    exact List.drop_left' (by simp)
  obtain ⟨_, _, hlen, _⟩ :=
    fields_at_trailer img (t.length + pl.length) pl.length hdrop
  unfold locate
  rw [if_pos (by omega), htail, scanBack_of_valid img _ hvalid]
  simp only [readTrailer, hlen, decLE_enc8 pl.length (by omega)]
  congr 1
  congr 1
  omega

theorem locate_eq_error_iff (img : List Byte) :
    locate img = .error .ArchiveNotFound ↔ ∀ i, ¬validTrailerAt img i := by
  unfold locate
  by_cases hlen : TRAILER_LEN ≤ img.length
  · rw [if_pos hlen]
    cases hscan : scanBack img (img.length - TRAILER_LEN) with
    | some i =>
      obtain ⟨_, h2, _⟩ := scanBack_eq_some img _ i hscan
      simp only []
      constructor
      · intro h; cases h
      · intro h; exact absurd h2 (h i)
    | none =>
      rw [scanBack_eq_none] at hscan
      simp only []
      constructor
      · intro _ i hv
        exact hscan i (valid_le_tail img i hv).2 hv
      · intro _; trivial
  · rw [if_neg hlen]
    constructor
    · intro _ i hv
      exact hlen (valid_le_tail img i hv).1
    · intro _; trivial

/-- Whenever a valid trailer exists, `locate` returns the rearmost one. -/
theorem locate_rearmost (img : List Byte) (i : Nat)
    (h : validTrailerAt img i) :
    ∃ j, i ≤ j ∧ validTrailerAt img j ∧
      (∀ k, j < k → ¬validTrailerAt img k) ∧
      locate img = .ok (readTrailer img j) := by
  obtain ⟨hl, hi⟩ := valid_le_tail img i h
  unfold locate
  rw [if_pos hl]
  cases hscan : scanBack img (img.length - TRAILER_LEN) with
  | none =>
    rw [scanBack_eq_none] at hscan
    exact absurd h (hscan i hi)
  | some j =>
    obtain ⟨h1, h2, h3⟩ := scanBack_eq_some img _ j hscan
    refine ⟨j, ?_, h2, fun k hk => ?_, rfl⟩
    · rcases le_or_lt i j with hij | hij
      · exact hij
      · exact absurd h (h3 i hij hi)
    · intro hvk
      rcases le_or_lt k (img.length - TRAILER_LEN) with hk2 | hk2
      · exact h3 k hk hk2 hvk
      · exact absurd (valid_le_tail img k hvk).2 (by omega)

/-- Extraction of the archive region of a built image reproduces the
entries, for any template, when all paths are safe. -/
theorem extract_built (t pl : List Byte) (entries : List Entry)
    (hpl : pl = payloadBytes entries)
    (hwf : ∀ e ∈ entries, wfEntry e)
    (hsafe : ∀ e ∈ entries, isSafePath e.1 = true) :
    extract (t ++ (pl ++ trailerBytes pl.length)) t.length pl.length =
      .ok entries := by
  have hdrop : (t ++ (pl ++ trailerBytes pl.length)).drop t.length =
      pl ++ trailerBytes pl.length := List.drop_left' rfl
  have htake : (pl ++ trailerBytes pl.length).take pl.length = pl :=
    List.take_left' rfl
  unfold extract
  rw [hdrop, htake, hpl, parseEntries_payload entries hwf]
  exact extractFrom_safe entries hsafe

/-! ## Helper lemmas: output-name derivation -/

theorem lastDotIdx_append (a b : List Char) :
    lastDotIdx (a ++ b) =
      match lastDotIdx b with
      | some i => some (a.length + i)
      | none => lastDotIdx a := by
  induction a with
  | nil =>
    cases hb : lastDotIdx b with
    | some i => simp [hb]
    | none => simp [lastDotIdx, hb]
  | cons c a ih =>
    have hstep : lastDotIdx (c :: (a ++ b)) =
        match lastDotIdx (a ++ b) with
        | some i => some (i + 1)
        | none => if c = '.' then some 0 else none := rfl
    rw [List.cons_append, hstep, ih]
    cases hb : lastDotIdx b with
    | some i =>
      show some (a.length + i + 1) = some ((c :: a).length + i)
      simp
      omega
    | none => rfl

theorem lastDotIdx_isSome_of_mem (l : List Char) (h : '.' ∈ l) :
    ∃ i, lastDotIdx l = some i := by
  induction l with
  | nil => cases h
  | cons c r ih =>
    cases hr : lastDotIdx r with
    | some i => exact ⟨i + 1, by simp [lastDotIdx, hr]⟩
    | none =>
      rcases List.mem_cons.mp h with h1 | h1
      · exact ⟨0, by simp [lastDotIdx, hr, ← h1]⟩
      · obtain ⟨i, hi⟩ := ih h1
        rw [hi] at hr; cases hr

theorem lastDotIdx_eq_none (l : List Char) (h : '.' ∉ l) :
    lastDotIdx l = none := by
  induction l with
  | nil => rfl
  | cons c r ih =>
    have hc : ¬c = '.' := fun hc => h (by simp [hc])
    have hr : lastDotIdx r = none := ih (fun hm => h (by simp [hm]))
    have hstep : lastDotIdx (c :: r) =
        match lastDotIdx r with
        | some i => some (i + 1)
        | none => if c = '.' then some 0 else none := rfl
    rw [hstep, hr, if_neg hc]

/-- Directory components survive `deriveOutputName` untouched whenever the
directory part has no dot and the file part has one. -/
theorem deriveOutputName_dir (d f : String)
    (hd : '.' ∉ d.toList) (hf : '.' ∈ f.toList) :
    deriveOutputName (d ++ "/" ++ f) = d ++ "/" ++ deriveOutputName f := by
  obtain ⟨i, hfi⟩ := lastDotIdx_isSome_of_mem f.toList hf
  have htl : (d ++ "/" ++ f).toList = (d.toList ++ ['/']) ++ f.toList := rfl
  have hd' : lastDotIdx (d.toList ++ ['/']) = none := by
    refine lastDotIdx_eq_none _ (fun hm => ?_)
    rcases List.mem_append.mp hm with h1 | h1
    · exact hd h1
    · simp at h1
  have hmain : lastDotIdx ((d.toList ++ ['/']) ++ f.toList) =
      some ((d.toList ++ ['/']).length + i) := by
    rw [lastDotIdx_append, hfi]
  unfold deriveOutputName
  rw [htl, hmain, hfi]
  show String.mk (((d.toList ++ ['/']) ++ f.toList).take ((d.toList ++ ['/']).length + i))
      ++ ".exe" = d ++ "/" ++ (String.mk (f.toList.take i) ++ ".exe")
  rw [List.take_append i]
  have hmk : ∀ x y : List Char, String.mk (x ++ y) = String.mk x ++ String.mk y :=
    fun _ _ => rfl
  rw [hmk]
  have h1 : String.mk (d.toList ++ ['/']) = d ++ "/" := rfl
  rw [h1, String.append_assoc]

/-! ## Claim theorems -/

/-- Claim C1 (code-bug evidence): a fully successful launcher run reaches
the `Waited` state and terminates with its temp directory still existing —
the recursive removal is commented out in `stub.c`
(`// RemoveDirectoryA(unique_dir); // Recursive delete needed`), so the
claimed always-cleanup does not hold on the code. -/
theorem c1_tempdir_left_behind :
    (stubMain env0).waited = true ∧
    (stubMain env0).exitCode = 0 ∧
    (stubMain env0).tempDirExistsAtExit = true := by
  refine ⟨rfl, rfl, rfl⟩

/-- Claim C2: building an archive from entries with unique safe relative
paths (whose sizes fit the 8-byte format fields), locating that archive
inside any image embedding it, and extracting the located region
reproduces exactly the original entries — same relative paths, byte-for-
byte identical content. -/
theorem c2_build_locate_extract_roundtrip
    (template : List Byte) (entries : List Entry)
    (hwf : ∀ e ∈ entries, wfEntry e)
    (hbound : (payloadBytes entries).length + TRAILER_LEN < 256 ^ 8)
    (hnodup : (entries.map Prod.fst).Nodup)
    (hsafe : ∀ e ∈ entries, isSafePath e.1 = true) :
    ∃ archive, build entries = .ok archive ∧
      locate (assemble template archive) =
        .ok (template.length, (payloadBytes entries).length) ∧
      extract (assemble template archive) template.length
        (payloadBytes entries).length = .ok entries := by
  refine ⟨payloadBytes entries ++ trailerBytes (payloadBytes entries).length,
    ?_, ?_, ?_⟩
  · unfold build
    rw [if_pos hnodup]
  · exact locate_built template (payloadBytes entries) hbound
  · exact extract_built template (payloadBytes entries) entries rfl hwf hsafe

/-- Witness for C2 at a concrete template and entry list. -/
theorem c2_witness :
    ∃ archive, build [sampleEntry] = .ok archive ∧
      locate (assemble [1, 2, 3] archive) =
        .ok (3, (payloadBytes [sampleEntry]).length) ∧
      extract (assemble [1, 2, 3] archive) 3
        (payloadBytes [sampleEntry]).length = .ok [sampleEntry] :=
  c2_build_locate_extract_roundtrip [1, 2, 3] [sampleEntry]
    (by decide) (by decide) (by decide) (by decide)

/-- Claim C3: `locate` first reads the trailer at the fixed tail position
(a valid trailer there is returned as-is); any valid trailer forces the
result to be the rearmost valid trailer, so decoy signature occurrences
earlier in the template lose; and `locate` fails with `ArchiveNotFound`
exactly when no valid trailer exists anywhere in the image. -/
theorem c3_locate_spec (img : List Byte) :
    (validTrailerAt img (img.length - TRAILER_LEN) →
      locate img = .ok (readTrailer img (img.length - TRAILER_LEN))) ∧
    (locate img = .error .ArchiveNotFound ↔ ∀ i, ¬validTrailerAt img i) ∧
    (∀ i, validTrailerAt img i →
      ∃ j, i ≤ j ∧ validTrailerAt img j ∧
        (∀ k, j < k → ¬validTrailerAt img k) ∧
        locate img = .ok (readTrailer img j)) := by
  refine ⟨?_, locate_eq_error_iff img, fun i h => locate_rearmost img i h⟩
  intro hv
  obtain ⟨j, hij, hjv, _, hloc⟩ := locate_rearmost img _ hv
  have hj : j = img.length - TRAILER_LEN :=
    le_antisymm (valid_le_tail img j hjv).2 hij
  rw [hloc, hj]

/-- Witness for C3 on an image whose template is itself a byte-for-byte
valid (decoy) trailer record: the rearmost trailer still wins. -/
theorem c3_witness :
    validTrailerAt decoyImg 0 ∧
    ∃ j, 0 ≤ j ∧ validTrailerAt decoyImg j ∧
      (∀ k, j < k → ¬validTrailerAt decoyImg k) ∧
      locate decoyImg = .ok (readTrailer decoyImg j) :=
  ⟨by decide, (c3_locate_spec decoyImg).2.2 0 (by decide)⟩

/-- Claim C4: when the archive region parses to entries containing one
whose normalized path escapes the destination, `extract` fails with
`UnsafePath`, and every file it wrote has a safe path (nothing is written
outside the destination). -/
theorem c4_extract_unsafe (img : List Byte) (off len : Nat) (es : List Entry)
    (hparse : parseEntries ((img.drop off).take len) = some es)
    (hbad : ∃ e ∈ es, isSafePath e.1 = false) :
    extract img off len = .error .UnsafePath ∧
    ∀ w ∈ extractWrites img off len, isSafePath w.1 = true := by
  constructor
  · unfold extract
    rw [hparse]
    exact extractFrom_unsafe es hbad
  · unfold extractWrites
    rw [hparse]
    show ∀ w ∈ es.takeWhile (fun e => isSafePath e.1), isSafePath w.1 = true
    intro w hw
    have hp := List.mem_takeWhile_imp hw
    exact hp

/-- Witness for C4 on an archive holding the entry `../outside.txt`. -/
theorem c4_witness :
    extract evilImg 1 (payloadBytes evilEntries).length =
      .error .UnsafePath ∧
    ∀ w ∈ extractWrites evilImg 1 (payloadBytes evilEntries).length,
      isSafePath w.1 = true :=
  c4_extract_unsafe evilImg 1 (payloadBytes evilEntries).length evilEntries
    (by decide) (by decide)

/-- Claim C5: in every run that reaches the `Waited` state, the launcher's
exit code equals the child's exit code. -/
theorem c5_exit_code_propagation (env : LaunchEnv)
    (hw : (stubMain env).waited = true) (hc : env.childExit < 4294967296) :
    (stubMain env).exitCode = env.childExit := by
  obtain ⟨mo, tp, pid, cd, so, ce⟩ := env
  cases mo <;> cases cd <;> cases so <;>
    simp [stubMain, tempDirStepOk] at hw ⊢ <;>
    exact hc

/-- Witness for C5: a child that exits 7 yields launcher exit code 7. -/
theorem c5_witness :
    (stubMain env7).waited = true ∧ env7.childExit < 4294967296 ∧
      (stubMain env7).exitCode = 7 :=
  ⟨rfl, by decide, c5_exit_code_propagation env7 rfl (by decide)⟩

/-- Claim C6 (counterexample): the derived output name keeps the input's
directory components — `deriveOutputName "dir/game.luau"` is
`"dir/game.exe"`, not the bare `"game.exe"` the claim's
independent-of-directory reading requires. -/
theorem c6_counterexample :
    deriveOutputName "dir/game.luau" = "dir/game.exe" ∧
    deriveOutputName "dir/game.luau" ≠ "game.exe" := by
  constructor
  · decide
  · decide

/-- Claim C6 (amended): `deriveOutputName` cuts the input at its last `'.'`
and appends `".exe"` (`"game.luau" ↦ "game.exe"`), appends `".exe"` to the
whole name when there is no dot (`"noext" ↦ "noext.exe"`), and preserves
directory components (for a dot-free directory part and a file part with an
extension), so the result is relative to the input's own directory rather
than a bare name in the current working directory. -/
theorem c6_deriveOutputName_amended :
    deriveOutputName "game.luau" = "game.exe" ∧
    deriveOutputName "noext" = "noext.exe" ∧
    ∀ d f : String, '.' ∉ d.toList → '.' ∈ f.toList →
      deriveOutputName (d ++ "/" ++ f) = d ++ "/" ++ deriveOutputName f :=
  ⟨by decide, by decide, fun d f hd hf => deriveOutputName_dir d f hd hf⟩

/-- Witness for the amended C6 at a concrete directory and file name. -/
theorem c6_witness :
    deriveOutputName ("dir" ++ "/" ++ "game.luau") =
      "dir" ++ "/" ++ deriveOutputName "game.luau" :=
  c6_deriveOutputName_amended.2.2 "dir" "game.luau" (by decide) (by decide)

/-- Claim C7 (spec-modelled packing): `build <script>` with a readable
input script and a working output write assembles the self-extracting
image (template plus built archive of the fixed runtime/script entries),
writes it to the derived output path, and exits with code 0. -/
theorem c7_build_success (filename : String) (io : BuilderIO)
    (content : List Byte)
    (hin : io.inputBytes = some content) (hw : io.writeOk = true) :
    ∃ archive, build (packEntries io.runtimeBytes content) = .ok archive ∧
      builderMain ["build", filename] io =
        ⟨0, some (deriveOutputName filename, assemble io.template archive),
          false⟩ := by
  have hnd : ((packEntries io.runtimeBytes content).map Prod.fst).Nodup := by
    simp [packEntries]
    decide
  have hbuild : build (packEntries io.runtimeBytes content) =
      .ok (payloadBytes (packEntries io.runtimeBytes content) ++
        trailerBytes (payloadBytes (packEntries io.runtimeBytes content)).length) := by
    unfold build
    rw [if_pos hnd]
  refine ⟨_, hbuild, ?_⟩
  simp [builderMain, packAndWrite, hin, hbuild, hw]

/-- Witness for C7 at a concrete builder environment. -/
theorem c7_witness :
    ∃ archive, build (packEntries sampleIO.runtimeBytes [1, 2]) = .ok archive ∧
      builderMain ["build", "game.luau"] sampleIO =
        ⟨0, some (deriveOutputName "game.luau",
          assemble sampleIO.template archive), false⟩ :=
  c7_build_success "game.luau" sampleIO [1, 2] rfl rfl

/-- Claim C8 (spec-modelled packing): builder-side errors stop the build
with exit code 1 and leave no partial output: an unreadable input file, a
failed output write, and a missing file argument each exit 1 with no
output file written and no half-written file left. -/
theorem c8_builder_errors (filename : String) (io : BuilderIO) :
    (io.inputBytes = none →
      builderMain ["build", filename] io = ⟨1, none, false⟩) ∧
    (io.writeOk = false →
      (builderMain ["build", filename] io).exitCode = 1 ∧
      (builderMain ["build", filename] io).written = none ∧
      (builderMain ["build", filename] io).partialOutput = false) ∧
    builderMain ["build"] io = ⟨1, none, false⟩ := by
  refine ⟨?_, ?_, ?_⟩
  · intro hin
    simp [builderMain, packAndWrite, hin]
  · intro hw
    cases hin : io.inputBytes with
    | none => simp [builderMain, packAndWrite, hin]
    | some c =>
      cases hb : build (packEntries io.runtimeBytes c) with
      | error e => simp [builderMain, packAndWrite, hin, hb]
      | ok a => simp [builderMain, packAndWrite, hin, hb, hw]
  · rfl

/-- Witness for C8 at a concrete builder environment with unreadable
input. -/
theorem c8_witness :
    builderMain ["build", "game.luau"] sampleIOBad = ⟨1, none, false⟩ ∧
    builderMain ["build"] sampleIOBad = ⟨1, none, false⟩ :=
  ⟨(c8_builder_errors "game.luau" sampleIOBad).1 rfl,
   (c8_builder_errors "game.luau" sampleIOBad).2.2⟩

/-- Claim C9: the temp-dir creation step succeeds when the directory
already exists (a second run with the same derived name proceeds), and any
creation failure other than already-exists is fatal: the launcher exits 1
before spawning. -/
theorem c9_tempdir_creation (osFault : Bool) (env : LaunchEnv) :
    (tempDirStepOk (createDirectoryA false false) = true ∧
      dirExistsAfter (createDirectoryA false false) = true) ∧
    tempDirStepOk
      (createDirectoryA (dirExistsAfter (createDirectoryA false false))
        osFault) = true ∧
    (∀ o, tempDirStepOk o = false ↔ o = .failed) ∧
    (env.moduleOk = true → env.createDir = .failed →
      stubMain env = ⟨1, none, false, false⟩) := by
  refine ⟨⟨rfl, rfl⟩, ?_, ?_, ?_⟩
  · cases osFault <;> rfl
  · intro o
    cases o <;> simp [tempDirStepOk]
  · intro h1 h2
    simp [stubMain, h1, h2, tempDirStepOk, dirExistsAfter]

/-- Witness for C9: a repeated creation proceeds; a hard failure makes the
launcher exit 1 without spawning. -/
theorem c9_witness :
    tempDirStepOk
      (createDirectoryA (dirExistsAfter (createDirectoryA false false))
        false) = true ∧
    tempDirStepOk .failed = false ∧
    stubMain envFail = ⟨1, none, false, false⟩ :=
  ⟨(c9_tempdir_creation false envFail).2.1,
   ((c9_tempdir_creation false envFail).2.2.1 .failed).mpr rfl,
   (c9_tempdir_creation false envFail).2.2.2 rfl rfl⟩

/-- Claim C10: whenever the launcher reaches the spawn step, it invokes
the child with the command line
`"<tempdir>\bin\lune.exe" run "<tempdir>\src\main.luau"` and the temp
directory as the child's working directory. -/
theorem c10_spawn_contract (env : LaunchEnv)
    (h1 : env.moduleOk = true) (h2 : tempDirStepOk env.createDir = true) :
    (stubMain env).spawnAttempt =
      some ("\"" ++ uniqueDir env ++ "\\bin\\lune.exe" ++ "\" run \"" ++
        uniqueDir env ++ "\\src\\main.luau" ++ "\"", uniqueDir env) := by
  obtain ⟨mo, tp, pid, cd, so, ce⟩ := env
  subst h1
  cases so <;>
    simp [stubMain, h2, cmdLine, lunePath, scriptPath, uniqueDir,
      String.append_assoc]

/-- Witness for C10 at a concrete launcher environment. -/
theorem c10_witness :
    (stubMain env7).spawnAttempt =
      some ("\"" ++ uniqueDir env7 ++ "\\bin\\lune.exe" ++ "\" run \"" ++
        uniqueDir env7 ++ "\\src\\main.luau" ++ "\"", uniqueDir env7) :=
  c10_spawn_contract env7 rfl rfl

end Lunu
